import Mathlib

/-!
# mp4tomp3: the converter window of `src/main.cpp`

A shallow embedding of the single translation unit of the repository. The
program is glue over Qt: two click handlers that share one captured string
(`selectedFileName`), two widgets whose visibility they toggle, and a child
process that is started and waited for synchronously.

* Strings are `QString`s, modelled as lists of characters.
* The Qt library calls the handlers depend on (`QFileInfo::path`,
  `QFileInfo::fileName`, `QFileInfo::completeBaseName`, `QString::left`,
  `QString::arg`) are modelled from Qt's documented behaviour on Unix.
* What the outside world answers (the path found for `ffmpeg`, the home
  directory, what a file dialog returns, how the child process ends) is an
  input of the model.
* What the program does to the outside world (dialogs, process calls, console
  lines) is recorded, in program order, as a list of `Effect`s.
-/

namespace Mp4ToMp3

/-! ## Strings -/

/-- A `QString`, as the list of its characters. -/
abbrev QString := List Char

/-- The call `QString::isEmpty()`. -/
def QString.isEmpty (s : QString) : Bool :=
  match s with
  | [] => true
  | _ :: _ => false

/-- The call `QString::left(n)`: the `n` leftmost characters, the whole string
when it is shorter. -/
def QString.left (s : QString) (n : Nat) : QString := s.take n

/-- The decimal text of an `int`, as `QString::arg(int)` inserts it. -/
def QString.number (n : Int) : QString := (toString n).toList

/-! ### `QString::arg`

`arg` looks for place markers `%1` ... `%99` (a percent sign, an optional `L`,
one or two decimal digits), takes the lowest number present and replaces every
marker of that number by the argument. With no marker at all the string is
returned unchanged. -/

/-- The value of a decimal digit `0` ... `9`, `none` for any other character
(the digit test of `QString::arg`, whose `-1` is `none`). -/
def digitValue (c : Char) : Option Nat :=
  if 48 ≤ c.toNat ∧ c.toNat ≤ 57 then some (c.toNat - 48) else none

/-- The number of the marker whose digits start the list, and how many digits
it has: one digit, and a second one when the next character is a digit too. -/
def escapeDigits : List Char → Option (Nat × Nat)
  | [] => none
  | d1 :: rest =>
    match digitValue d1 with
    | none => none
    | some a =>
      match rest with
      | [] => some (a, 1)
      | d2 :: _ =>
        match digitValue d2 with
        | none => some (a, 1)
        | some b => some (10 * a + b, 2)

/-- The percent sign that starts a place marker. -/
def percent : Char := Char.ofNat 37

/-- The letter `L` that asks for the localized form of a number. -/
def localeFlag : Char := Char.ofNat 76

/-- The marker that starts at the head of the list, when one does: its number
and its length in characters (the percent sign and an `L` included). -/
def escapeAt : List Char → Option (Nat × Nat)
  | [] => none
  | c :: rest =>
    if c = percent then
      match rest with
      | [] => none
      | l :: rest2 =>
        if l = localeFlag then
          (escapeDigits rest2).map (fun p => (p.1, p.2 + 2))
        else
          (escapeDigits rest).map (fun p => (p.1, p.2 + 1))
    else none

/-- A piece of a scanned string: one ordinary character, or one place marker
with its number and its source text. -/
inductive Piece where
  | chr (c : Char)
  | escape (n : Nat) (raw : List Char)
deriving DecidableEq, Repr

/-- The left-to-right scan `findArgEscapes` and `replaceArgEscapes` share.
`skip` counts the characters still belonging to the marker found last. -/
def scanPieces : Nat → List Char → List Piece
  | _, [] => []
  | skip + 1, _ :: cs => scanPieces skip cs
  | 0, c :: cs =>
    match escapeAt (c :: cs) with
    | some (n, len) => Piece.escape n ((c :: cs).take len) :: scanPieces (len - 1) cs
    | none => Piece.chr c :: scanPieces 0 cs

/-- The lowest marker number among the pieces (`min_escape`), `none` when
there is no marker (`occurrences == 0`). -/
def minEscape : List Piece → Option Nat
  | [] => none
  | Piece.chr _ :: ps => minEscape ps
  | Piece.escape n _ :: ps =>
    match minEscape ps with
    | none => some n
    | some m => some (min n m)

/-- The text a piece becomes when the markers numbered `m` are replaced by `a`. -/
def Piece.render (m : Nat) (a : QString) : Piece → QString
  | Piece.chr c => [c]
  | Piece.escape n raw => if n = m then a else raw

/-- The call `QString::arg(a)` on `s`, for a string argument and for the
decimal text of a number alike. -/
def QString.arg (s : QString) (a : QString) : QString :=
  match minEscape (scanPieces 0 s) with
  | none => s
  | some m => ((scanPieces 0 s).map (Piece.render m a)).flatten

/-! ## File names: `QFileInfo` -/

/-- Split a list at the last occurrence of `sep`: what stands before it and
what stands after it; `none` when `sep` does not occur. -/
def splitLast (sep : Char) : List Char → Option (List Char × List Char)
  | [] => none
  | c :: cs =>
    match splitLast sep cs with
    | some (a, b) => some (c :: a, b)
    | none => if c = sep then some ([], cs) else none

/-- The path separator. -/
def slash : Char := Char.ofNat 47

/-- The dot that starts a file name suffix. -/
def dot : Char := Char.ofNat 46

/-- The call `QFileInfo(p).fileName()`: what follows the last separator, the
whole string when there is none. -/
def QFileInfo.fileName (p : QString) : QString :=
  match splitLast slash p with
  | some (_, name) => name
  | none => p

/-- The call `QFileInfo(p).path()`: what precedes the last separator; `/` when
the only separator is the first character, `.` when there is none. -/
def QFileInfo.path (p : QString) : QString :=
  match splitLast slash p with
  | none => [dot]
  | some ([], _) => [slash]
  | some (c :: dir, _) => c :: dir

/-- The call `QFileInfo(p).completeBaseName()`: the file name up to, not
including, its last dot; the whole file name when it has no dot. -/
def QFileInfo.completeBaseName (p : QString) : QString :=
  match splitLast dot (QFileInfo.fileName p) with
  | some (base, _) => base
  | none => QFileInfo.fileName p

/-! ## The window and the outside world -/

/-- How a child process ended (`QProcess::ExitStatus`). -/
inductive ExitStatus where
  | NormalExit
  | CrashExit
deriving DecidableEq, Repr

/-- What one run of the child process answers to the handler's calls. -/
structure ProcessRun where
  /-- The result of `waitForStarted(5000)`. -/
  waitForStarted : Bool
  /-- The result of `waitForFinished(300000)`. -/
  waitForFinished : Bool
  /-- The result of `exitStatus()`. -/
  exitStatus : ExitStatus
  /-- The result of `exitCode()`. -/
  exitCode : Int
  /-- The text of `readAllStandardOutput()`. -/
  standardOutput : QString
  /-- The text of `readAllStandardError()`. -/
  standardError : QString
deriving DecidableEq, Repr

/-- The two buttons of the window. -/
inductive Button where
  | selectButton
  | convertButton
deriving DecidableEq, Repr

/-- What the program does to the outside world, one constructor per call. -/
inductive Effect where
  | findExecutable (name : QString)
  | connectClicked (button : Button)
  | windowShow
  | appExec
  | getOpenFileName (caption dir filter : QString)
  | getSaveFileName (caption dir filter : QString)
  | critical (title text : QString)
  | information (title text : QString)
  | cout (line : QString)
  | cerr (line : QString)
  | processStart (program : QString) (arguments : List QString)
  | waitForStarted (msecs : Nat)
  | waitForFinished (msecs : Nat)
  | terminate
  | readAllStandardOutput
  | readAllStandardError
  | exitStatus
  | exitCode
deriving DecidableEq, Repr

/-- The state the two handlers share: the captured `selectedFileName` and the
two widgets they change. -/
structure Window where
  /-- The captured `QString selectedFileName`. -/
  selectedFileName : QString
  /-- The text of `fileNameLabel`. -/
  fileNameLabelText : QString
  /-- Whether `fileNameLabel` is shown. -/
  fileNameLabelVisible : Bool
  /-- Whether `convertButton` is shown. -/
  convertButtonVisible : Bool
deriving DecidableEq, Repr

/-- The window as `main` builds it: no file selected, the label without text
and hidden, the convert button hidden. -/
def initialWindow : Window :=
  { selectedFileName := []
    fileNameLabelText := []
    fileNameLabelVisible := false
    convertButtonVisible := false }

/-! ## The Select handler -/

/-- The handler connected to `selectButton`. `homePath` is `QDir::homePath()`,
`chosen` what the open-file dialog returns (empty when it is cancelled). -/
def selectClicked (homePath : QString) (w : Window) (chosen : QString) :
    Window × List Effect :=
  let fx := [Effect.getOpenFileName "Select MP4 file".toList homePath
    "MP4 Files (*.mp4);;All Files (*)".toList]
  let w1 := { w with selectedFileName := chosen }
  if !w1.selectedFileName.isEmpty then
    ({ w1 with
        fileNameLabelText := QFileInfo.fileName w1.selectedFileName
        fileNameLabelVisible := true
        convertButtonVisible := true }, fx)
  else
    (w1, fx)

/-! ## The Convert handler -/

/-- The name suggested to the save dialog. -/
def suggestedName (selectedFileName : QString) : QString :=
  QFileInfo.path selectedFileName ++ "/".toList ++
    QFileInfo.completeBaseName selectedFileName ++ ".mp3".toList

/-- The argument list built for ffmpeg. -/
def args (selectedFileName outputFileName : QString) : List QString :=
  ["-i".toList, selectedFileName, "-vn".toList, "-acodec".toList, "libmp3lame".toList,
    "-ab".toList, "192k".toList, "-y".toList, outputFileName]

/-- The format string of the failure dialog. -/
def errorFormat : QString :=
  "Conversion failed!\n\nExit code: %1\n\nError output:\n%2\n\nStandard output:\n%3".toList

/-- The text `errorMsg` of the failure dialog: three chained `arg` calls. -/
def errorMsg (exitCode : Int) (error output : QString) : QString :=
  ((errorFormat.arg (QString.number exitCode)).arg (error.left 500)).arg (output.left 500)

/-- The label text of every failure path. -/
def conversionFailed : QString := "Conversion failed!".toList

/-- The handler connected to `convertButton`. `ffmpegPath` is the captured
tool path, `saved` what the save dialog returns (empty when it is cancelled),
`run` how the child process behaves. The calls `exitStatus()` and `exitCode()`
are recorded as they are made: the second operand of `&&` only after a normal
exit, and `exitCode()` once more for the failure text. -/
def convertClicked (ffmpegPath : QString) (w : Window) (saved : QString) (run : ProcessRun) :
    Window × List Effect :=
  if !w.selectedFileName.isEmpty then
    let w1 := { w with fileNameLabelText := "Converting...".toList }
    let fx1 := [Effect.getSaveFileName "Save MP3 file".toList (suggestedName w.selectedFileName)
      "MP3 Files (*.mp3);;All Files (*)".toList]
    let outputFileName := saved
    if !outputFileName.isEmpty then
      let fx2 := fx1 ++ [Effect.cout ("Running command: ".toList ++ ffmpegPath)]
        ++ (args w.selectedFileName outputFileName).map
          (fun arg => Effect.cout ("  ".toList ++ arg))
        ++ [Effect.processStart ffmpegPath (args w.selectedFileName outputFileName),
          Effect.waitForStarted 5000]
      if !run.waitForStarted then
        ({ w1 with fileNameLabelText := conversionFailed },
          fx2 ++ [Effect.critical "Error".toList
            ("Failed to start ffmpeg conversion!\nPath: ".toList ++ ffmpegPath)])
      else
        let fx3 := fx2 ++ [Effect.waitForFinished 300000]
        if !run.waitForFinished then
          ({ w1 with fileNameLabelText := conversionFailed },
            fx3 ++ [Effect.terminate,
              Effect.critical "Error".toList "Conversion timed out or failed!".toList])
        else
          let output := run.standardOutput
          let error := run.standardError
          let fx4 := fx3 ++ [Effect.readAllStandardOutput, Effect.readAllStandardError,
            Effect.exitStatus]
            ++ (if run.exitStatus = ExitStatus.NormalExit then [Effect.exitCode] else [])
          if run.exitStatus = ExitStatus.NormalExit ∧ run.exitCode = 0 then
            ({ w1 with fileNameLabelText := "Converted successfully!".toList },
              fx4 ++ [Effect.information "Success".toList
                ("File converted successfully!\n".toList ++ outputFileName)])
          else
            ({ w1 with fileNameLabelText := conversionFailed },
              fx4 ++ [Effect.exitCode,
                Effect.critical "Error".toList (errorMsg run.exitCode error output),
                Effect.cerr "FFmpeg error output:".toList, Effect.cerr error])
    else
      (w1, fx1)
  else
    (w, [])

/-- The trace of the Convert handler up to the save dialog. -/
def saveDialogTrace (selectedFileName : QString) : List Effect :=
  [Effect.getSaveFileName "Save MP3 file".toList (suggestedName selectedFileName)
    "MP3 Files (*.mp3);;All Files (*)".toList]

/-- The trace of the Convert handler from the save dialog to the wait for the
start of the child process. -/
def startTrace (ffmpegPath selectedFileName outputFileName : QString) : List Effect :=
  saveDialogTrace selectedFileName
    ++ [Effect.cout ("Running command: ".toList ++ ffmpegPath)]
    ++ (args selectedFileName outputFileName).map (fun arg => Effect.cout ("  ".toList ++ arg))
    ++ [Effect.processStart ffmpegPath (args selectedFileName outputFileName),
      Effect.waitForStarted 5000]

/-! ## `main` and the event loop -/

/-- A click the event loop delivers, with what the outside world answers
during the handler. -/
inductive Event where
  | selectClick (chosen : QString)
  | convertClick (saved : QString) (run : ProcessRun)
deriving DecidableEq, Repr

/-- Deliver one click. A hidden convert button receives no click. -/
def dispatch (ffmpegPath homePath : QString) (w : Window) : Event → Window × List Effect
  | Event.selectClick chosen => selectClicked homePath w chosen
  | Event.convertClick saved run =>
    if w.convertButtonVisible then convertClicked ffmpegPath w saved run else (w, [])

/-- The event loop: the clicks are handled one after the other. -/
def runEvents (ffmpegPath homePath : QString) : Window → List Event → Window × List Effect
  | w, [] => (w, [])
  | w, e :: es =>
    let r := dispatch ffmpegPath homePath w e
    let r2 := runEvents ffmpegPath homePath r.1 es
    (r2.1, r.2 ++ r2.2)

/-- What a run of the program leaves behind. -/
structure Run where
  /-- The value `main` returns. -/
  exitCode : Int
  /-- The window state at the end. -/
  window : Window
  /-- Everything the program did, in order. -/
  trace : List Effect
deriving DecidableEq, Repr

/-- The text of the dialog shown when ffmpeg is not found. -/
def ffmpegNotFound : QString :=
  "ffmpeg not found! Please install ffmpeg:\nsudo dnf install ffmpeg".toList

/-- The function `main`. `found` is what `QStandardPaths::findExecutable("ffmpeg")`
returns (empty when there is no such executable), `events` the clicks the
event loop delivers before the window is closed. The program never calls
`exit` with a code of its own, so the loop ends through `quit()` and
`app.exec()` returns 0. -/
def main (found homePath : QString) (events : List Event) : Run :=
  let ffmpegPath := found
  let fx0 := [Effect.findExecutable "ffmpeg".toList]
  if ffmpegPath.isEmpty then
    { exitCode := 1
      window := initialWindow
      trace := fx0 ++ [Effect.critical "Error".toList ffmpegNotFound] }
  else
    let r := runEvents ffmpegPath homePath initialWindow events
    { exitCode := 0
      window := r.1
      trace := fx0 ++ [Effect.connectClicked Button.selectButton,
        Effect.connectClicked Button.convertButton, Effect.windowShow, Effect.appExec] ++ r.2 }

/-! ## Sample inputs -/

/-- A tool path as `findExecutable` returns it. -/
def sampleFfmpeg : QString := "/usr/bin/ffmpeg".toList

/-- A home directory. -/
def sampleHome : QString := "/home/user".toList

/-- An input file as the open-file dialog returns it. -/
def sampleInput : QString := "/home/user/clips/holiday.2024.mp4".toList

/-- An output file as the save dialog returns it. -/
def sampleOutput : QString := "/home/user/music/holiday.mp3".toList

/-- The window after `sampleInput` was selected. -/
def sampleWindow : Window := (selectClicked sampleHome initialWindow sampleInput).1

/-- A child process that ran to its end and reported the given status, code
and streams. -/
def finishedRun (status : ExitStatus) (code : Int) (output error : QString) : ProcessRun :=
  { waitForStarted := true
    waitForFinished := true
    exitStatus := status
    exitCode := code
    standardOutput := output
    standardError := error }

/-- A child process that started and was still running when the wait for its
end gave up. -/
def hangingRun : ProcessRun :=
  { waitForStarted := true
    waitForFinished := false
    exitStatus := ExitStatus.NormalExit
    exitCode := 0
    standardOutput := []
    standardError := [] }

/-- An input file whose name holds a percent sign and a digit. -/
def markerInput : QString := "/home/user/clips/take%1.mp4".toList

/-- A failed run of ffmpeg on `markerInput`: exit code 1, nothing on the
standard output, one line naming the input on the error stream. -/
def markerRun : ProcessRun :=
  finishedRun ExitStatus.NormalExit 1 []
    "/home/user/clips/take%1.mp4: Invalid data found when processing input\n".toList

/-! ## Lemmas on `splitLast` and the `QFileInfo` calls -/

theorem splitLast_eq_none {sep : Char} {l : List Char} (h : sep ∉ l) :
    splitLast sep l = none := by
  induction l with
  | nil => rfl
  | cons c cs ih =>
    have hc : ¬ c = sep := fun e => h (by simp [e])
    have hcs : sep ∉ cs := fun m => h (List.mem_cons_of_mem _ m)
    simp [splitLast, ih hcs, hc]

theorem splitLast_append {sep : Char} (a : List Char) {b : List Char} (h : sep ∉ b) :
    splitLast sep (a ++ sep :: b) = some (a, b) := by
  induction a with
  | nil => simp [splitLast, splitLast_eq_none h]
  | cons c cs ih => simp [splitLast, ih]

theorem not_mem_of_splitLast_none {sep : Char} {l : List Char}
    (h : splitLast sep l = none) : sep ∉ l := by
  induction l with
  | nil => simp
  | cons c cs ih =>
    unfold splitLast at h
    cases hcs : splitLast sep cs with
    | some q => rw [hcs] at h; simp at h
    | none =>
      rw [hcs] at h
      by_cases hc : c = sep
      · simp [hc] at h
      · intro hm
        rcases List.mem_cons.mp hm with e | m
        · exact hc e.symm
        · exact ih hcs m

theorem splitLast_some {sep : Char} {l a b : List Char} (h : splitLast sep l = some (a, b)) :
    l = a ++ sep :: b ∧ sep ∉ b := by
  induction l generalizing a b with
  | nil => simp [splitLast] at h
  | cons c cs ih =>
    unfold splitLast at h
    cases hcs : splitLast sep cs with
    | some p =>
      obtain ⟨a1, b1⟩ := p
      rw [hcs] at h
      simp only [Option.some.injEq, Prod.mk.injEq] at h
      obtain ⟨ha, hb⟩ := h
      obtain ⟨h1, h2⟩ := ih hcs
      subst ha hb
      exact ⟨by rw [h1]; rfl, h2⟩
    | none =>
      rw [hcs] at h
      by_cases hc : c = sep
      · simp only [hc, if_true, Option.some.injEq, Prod.mk.injEq] at h
        obtain ⟨ha, hb⟩ := h
        subst ha hb hc
        exact ⟨rfl, not_mem_of_splitLast_none hcs⟩
      · simp [hc] at h

/-- The file name has no separator in it. -/
theorem slash_not_mem_fileName (p : QString) : slash ∉ QFileInfo.fileName p := by
  unfold QFileInfo.fileName
  cases h : splitLast slash p with
  | none => exact not_mem_of_splitLast_none h
  | some q =>
    obtain ⟨a, b⟩ := q
    exact (splitLast_some h).2

/-- A path is its file name, or a directory part, a separator and its file name. -/
theorem fileName_decompose (p : QString) :
    p = QFileInfo.fileName p ∨ ∃ dir, p = dir ++ slash :: QFileInfo.fileName p := by
  unfold QFileInfo.fileName
  cases h : splitLast slash p with
  | none => exact Or.inl rfl
  | some q =>
    obtain ⟨a, b⟩ := q
    exact Or.inr ⟨a, (splitLast_some h).1⟩

/-- The complete base name has no separator in it. -/
theorem slash_not_mem_completeBaseName (p : QString) :
    slash ∉ QFileInfo.completeBaseName p := by
  unfold QFileInfo.completeBaseName
  cases h : splitLast dot (QFileInfo.fileName p) with
  | none => exact slash_not_mem_fileName p
  | some q =>
    obtain ⟨a, b⟩ := q
    intro hm
    apply slash_not_mem_fileName p
    rw [(splitLast_some h).1]
    exact List.mem_append_left _ hm

/-- The directory part is never empty. -/
theorem path_ne_nil (p : QString) : QFileInfo.path p ≠ [] := by
  unfold QFileInfo.path
  cases h : splitLast slash p with
  | none => simp
  | some q =>
    obtain ⟨a, b⟩ := q
    cases a <;> simp

/-- The directory part of `dir/name`, for a non-empty `dir` and a `name`
without separator, is `dir`. -/
theorem path_append {dir name : QString} (hd : dir ≠ []) (hn : slash ∉ name) :
    QFileInfo.path (dir ++ slash :: name) = dir := by
  unfold QFileInfo.path
  rw [splitLast_append dir hn]
  cases dir with
  | nil => exact absurd rfl hd
  | cons c cs => rfl

/-- The file name of `dir/name`, for a `name` without separator, is `name`. -/
theorem fileName_append (dir : QString) {name : QString} (hn : slash ∉ name) :
    QFileInfo.fileName (dir ++ slash :: name) = name := by
  unfold QFileInfo.fileName
  rw [splitLast_append dir hn]

/-- The complete base name of `dir/stem.ext`, for `stem` and `ext` without
separator and `ext` without dot, is `stem`. -/
theorem completeBaseName_append (dir : QString) {stem ext : QString}
    (hs : slash ∉ stem) (he : slash ∉ ext) (hdot : dot ∉ ext) :
    QFileInfo.completeBaseName (dir ++ slash :: (stem ++ dot :: ext)) = stem := by
  have hn : slash ∉ stem ++ dot :: ext := by
    intro hm
    rcases List.mem_append.mp hm with m | m
    · exact hs m
    · rcases List.mem_cons.mp m with e | m2
      · exact absurd e (by decide)
      · exact he m2
  unfold QFileInfo.completeBaseName
  rw [fileName_append dir hn, splitLast_append stem hdot]

/-! ## Lemmas on the handlers -/

theorem isEmpty_eq_true_iff (s : QString) : s.isEmpty = true ↔ s = [] := by
  cases s <;> simp [QString.isEmpty]

theorem isEmpty_eq_false_iff (s : QString) : s.isEmpty = false ↔ s ≠ [] := by
  cases s <;> simp [QString.isEmpty]

theorem convertClicked_empty (ffmpegPath : QString) (w : Window) (saved : QString)
    (run : ProcessRun) (h : w.selectedFileName = []) :
    convertClicked ffmpegPath w saved run = (w, []) := by
  simp [convertClicked, h, QString.isEmpty]

theorem convertClicked_cancel (ffmpegPath : QString) (w : Window) (run : ProcessRun)
    (h : w.selectedFileName ≠ []) :
    convertClicked ffmpegPath w [] run =
      ({ w with fileNameLabelText := "Converting...".toList },
        saveDialogTrace w.selectedFileName) := by
  have h1 := (isEmpty_eq_false_iff _).mpr h
  have h0 : QString.isEmpty [] = true := rfl
  simp [convertClicked, h1, h0, saveDialogTrace]

theorem convertClicked_notStarted (ffmpegPath : QString) (w : Window) (saved : QString)
    (run : ProcessRun) (h : w.selectedFileName ≠ []) (ho : saved ≠ [])
    (hs : run.waitForStarted = false) :
    convertClicked ffmpegPath w saved run =
      ({ w with fileNameLabelText := conversionFailed },
        startTrace ffmpegPath w.selectedFileName saved
          ++ [Effect.critical "Error".toList
            ("Failed to start ffmpeg conversion!\nPath: ".toList ++ ffmpegPath)]) := by
  have h1 := (isEmpty_eq_false_iff _).mpr h
  have h2 := (isEmpty_eq_false_iff _).mpr ho
  simp [convertClicked, h1, h2, hs, saveDialogTrace, startTrace]

theorem convertClicked_timeout (ffmpegPath : QString) (w : Window) (saved : QString)
    (run : ProcessRun) (h : w.selectedFileName ≠ []) (ho : saved ≠ [])
    (hs : run.waitForStarted = true) (hf : run.waitForFinished = false) :
    convertClicked ffmpegPath w saved run =
      ({ w with fileNameLabelText := conversionFailed },
        startTrace ffmpegPath w.selectedFileName saved
          ++ [Effect.waitForFinished 300000, Effect.terminate,
            Effect.critical "Error".toList "Conversion timed out or failed!".toList]) := by
  have h1 := (isEmpty_eq_false_iff _).mpr h
  have h2 := (isEmpty_eq_false_iff _).mpr ho
  simp [convertClicked, h1, h2, hs, hf, saveDialogTrace, startTrace]

theorem convertClicked_success (ffmpegPath : QString) (w : Window) (saved : QString)
    (run : ProcessRun) (h : w.selectedFileName ≠ []) (ho : saved ≠ [])
    (hs : run.waitForStarted = true) (hf : run.waitForFinished = true)
    (he : run.exitStatus = ExitStatus.NormalExit) (hc : run.exitCode = 0) :
    convertClicked ffmpegPath w saved run =
      ({ w with fileNameLabelText := "Converted successfully!".toList },
        startTrace ffmpegPath w.selectedFileName saved
          ++ [Effect.waitForFinished 300000, Effect.readAllStandardOutput,
            Effect.readAllStandardError, Effect.exitStatus, Effect.exitCode,
            Effect.information "Success".toList
              ("File converted successfully!\n".toList ++ saved)]) := by
  have h1 := (isEmpty_eq_false_iff _).mpr h
  have h2 := (isEmpty_eq_false_iff _).mpr ho
  simp [convertClicked, h1, h2, hs, hf, he, hc, saveDialogTrace, startTrace]

theorem convertClicked_failure (ffmpegPath : QString) (w : Window) (saved : QString)
    (run : ProcessRun) (h : w.selectedFileName ≠ []) (ho : saved ≠ [])
    (hs : run.waitForStarted = true) (hf : run.waitForFinished = true)
    (he : ¬ (run.exitStatus = ExitStatus.NormalExit ∧ run.exitCode = 0)) :
    convertClicked ffmpegPath w saved run =
      ({ w with fileNameLabelText := conversionFailed },
        startTrace ffmpegPath w.selectedFileName saved
          ++ [Effect.waitForFinished 300000, Effect.readAllStandardOutput,
            Effect.readAllStandardError, Effect.exitStatus]
          ++ (if run.exitStatus = ExitStatus.NormalExit then [Effect.exitCode] else [])
          ++ [Effect.exitCode,
            Effect.critical "Error".toList
              (errorMsg run.exitCode run.standardError run.standardOutput),
            Effect.cerr "FFmpeg error output:".toList, Effect.cerr run.standardError]) := by
  have h1 := (isEmpty_eq_false_iff _).mpr h
  have h2 := (isEmpty_eq_false_iff _).mpr ho
  simp only [convertClicked, h1, h2, hs, hf, he, saveDialogTrace, startTrace]
  simp

/-- The programs the Convert handler starts, once an input is selected and an
output confirmed: the tool, with the argument list of `args`, whatever
the child process does afterwards. -/
theorem processStart_mem_convertClicked (ffmpegPath : QString) (w : Window)
    (saved : QString) (run : ProcessRun) (h : w.selectedFileName ≠ []) (ho : saved ≠ [])
    (program : QString) (arguments : List QString) :
    Effect.processStart program arguments ∈ (convertClicked ffmpegPath w saved run).2
      ↔ (program = ffmpegPath
        ∧ arguments = ["-i".toList, w.selectedFileName, "-vn".toList, "-acodec".toList,
            "libmp3lame".toList, "-ab".toList, "192k".toList, "-y".toList, saved]) := by
  cases hs : run.waitForStarted with
  | false =>
    rw [convertClicked_notStarted ffmpegPath w saved run h ho hs]
    simp [startTrace, saveDialogTrace, args]
  | true =>
    cases hf : run.waitForFinished with
    | false =>
      rw [convertClicked_timeout ffmpegPath w saved run h ho hs hf]
      simp [startTrace, saveDialogTrace, args]
    | true =>
      by_cases hc : run.exitStatus = ExitStatus.NormalExit ∧ run.exitCode = 0
      · rw [convertClicked_success ffmpegPath w saved run h ho hs hf hc.1 hc.2]
        simp [startTrace, saveDialogTrace, args]
      · rw [convertClicked_failure ffmpegPath w saved run h ho hs hf hc]
        simp only [startTrace, saveDialogTrace, args]
        split <;> simp

/-- The Convert handler changes the label's text only. -/
theorem convertClicked_frame (ffmpegPath : QString) (w : Window) (saved : QString)
    (run : ProcessRun) :
    (convertClicked ffmpegPath w saved run).1.selectedFileName = w.selectedFileName
    ∧ (convertClicked ffmpegPath w saved run).1.fileNameLabelVisible = w.fileNameLabelVisible
    ∧ (convertClicked ffmpegPath w saved run).1.convertButtonVisible
        = w.convertButtonVisible := by
  unfold convertClicked
  simp only
  split_ifs <;> exact ⟨rfl, rfl, rfl⟩

/-- In every state the event loop reaches, a non-empty stored input path comes
with a visible convert button. -/
theorem runEvents_visible_of_stored (ffmpegPath homePath : QString) (events : List Event)
    (w : Window) (hw : w.selectedFileName ≠ [] → w.convertButtonVisible = true) :
    (runEvents ffmpegPath homePath w events).1.selectedFileName ≠ [] →
      (runEvents ffmpegPath homePath w events).1.convertButtonVisible = true := by
  induction events generalizing w with
  | nil => exact hw
  | cons e es ih =>
    apply ih
    cases e with
    | selectClick chosen =>
      intro hne
      by_cases hc : chosen = []
      · subst hc
        exact absurd rfl hne
      · have h1 := (isEmpty_eq_false_iff _).mpr hc
        simp [dispatch, selectClicked, h1]
    | convertClick saved run =>
      simp only [dispatch]
      split
      · have hf := convertClicked_frame ffmpegPath w saved run
        rw [hf.1, hf.2.2]
        exact hw
      · exact hw

/-! ## Lemmas on `QString::arg` -/

theorem escapeAt_of_ne_percent {c : Char} (cs : List Char) (h : c ≠ percent) :
    escapeAt (c :: cs) = none := by
  simp [escapeAt, h]

theorem scanPieces_append_of_not_mem {l : List Char} (rest : List Char) (h : percent ∉ l) :
    scanPieces 0 (l ++ rest) = l.map Piece.chr ++ scanPieces 0 rest := by
  induction l with
  | nil => rfl
  | cons c cs ih =>
    have hc : c ≠ percent := fun e => h (by simp [e])
    have hcs : percent ∉ cs := fun m => h (List.mem_cons_of_mem _ m)
    simp [scanPieces, escapeAt_of_ne_percent _ hc, ih hcs]

theorem minEscape_map_chr_append (l : List Char) (ps : List Piece) :
    minEscape (l.map Piece.chr ++ ps) = minEscape ps := by
  induction l with
  | nil => rfl
  | cons c cs ih => simpa [minEscape] using ih

theorem render_map_chr_append (m : Nat) (a : QString) (l : List Char) (ps : List Piece) :
    ((l.map Piece.chr ++ ps).map (Piece.render m a)).flatten
      = l ++ (ps.map (Piece.render m a)).flatten := by
  induction l with
  | nil => rfl
  | cons c cs ih =>
    show Piece.render m a (Piece.chr c)
        ++ ((cs.map Piece.chr ++ ps).map (Piece.render m a)).flatten = c :: (cs ++ _)
    rw [ih]
    rfl

theorem arg_append_of_not_mem {l : List Char} (rest a : QString) (m : Nat)
    (h : percent ∉ l) (hm : minEscape (scanPieces 0 rest) = some m) :
    QString.arg (l ++ rest) a = l ++ ((scanPieces 0 rest).map (Piece.render m a)).flatten := by
  unfold QString.arg
  rw [scanPieces_append_of_not_mem rest h, minEscape_map_chr_append, hm]
  exact render_map_chr_append m a l _

theorem digitChar_ne_percent : ∀ k, k < 10 → Nat.digitChar k ≠ percent := by
  decide

theorem not_mem_toDigitsCore (fuel n : Nat) (ds : List Char) (h : percent ∉ ds) :
    percent ∉ Nat.toDigitsCore 10 fuel n ds := by
  induction fuel generalizing n ds with
  | zero => simpa [Nat.toDigitsCore] using h
  | succ f ih =>
    have hd : percent ∉ Nat.digitChar (n % 10) :: ds := by
      intro hm
      rcases List.mem_cons.mp hm with e | m
      · exact digitChar_ne_percent _ (Nat.mod_lt n (by decide)) e.symm
      · exact h m
    unfold Nat.toDigitsCore
    simp only
    split
    · exact hd
    · exact ih _ _ hd

theorem not_mem_natRepr (n : Nat) : percent ∉ (toString n).toList := by
  show percent ∉ (Nat.repr n).toList
  simp only [Nat.repr, Nat.toDigits, String.toList, List.asString]
  exact not_mem_toDigitsCore _ _ _ (by simp)

theorem not_mem_number (n : Int) : percent ∉ QString.number n := by
  unfold QString.number
  cases n with
  | ofNat m => exact not_mem_natRepr m
  | negSucc m =>
    show percent ∉ ("-" ++ toString (Nat.succ m)).toList
    rw [String.toList, String.data_append]
    intro hm
    rcases List.mem_append.mp hm with e | e
    · exact absurd e (by decide)
    · exact not_mem_natRepr _ e

/-- When the first 500 characters of the error stream hold no percent sign,
the failure text is the fixed wording around the decimal exit code, the first
500 characters of the error stream and the first 500 characters of the
standard output. -/
theorem errorMsg_of_not_mem (exitCode : Int) (error output : QString)
    (h : percent ∉ error.left 500) :
    errorMsg exitCode error output
      = "Conversion failed!\n\nExit code: ".toList ++ QString.number exitCode
        ++ "\n\nError output:\n".toList ++ error.left 500
        ++ "\n\nStandard output:\n".toList ++ output.left 500 := by
  have hnum := not_mem_number exitCode
  have h1 : errorFormat.arg (QString.number exitCode)
      = ("Conversion failed!\n\nExit code: ".toList ++ QString.number exitCode
          ++ "\n\nError output:\n".toList) ++ "%2\n\nStandard output:\n%3".toList := by
    have e := arg_append_of_not_mem (l := "Conversion failed!\n\nExit code: ".toList)
      "%1\n\nError output:\n%2\n\nStandard output:\n%3".toList (QString.number exitCode) 1
      (by decide) (by decide)
    have e0 : errorFormat = "Conversion failed!\n\nExit code: ".toList
        ++ "%1\n\nError output:\n%2\n\nStandard output:\n%3".toList := by decide
    rw [e0, e]
    simp only [List.append_assoc]
    rfl
  have h2 : (errorFormat.arg (QString.number exitCode)).arg (error.left 500)
      = ("Conversion failed!\n\nExit code: ".toList ++ QString.number exitCode
          ++ "\n\nError output:\n".toList ++ error.left 500
          ++ "\n\nStandard output:\n".toList) ++ "%3".toList := by
    have hp : percent ∉ "Conversion failed!\n\nExit code: ".toList ++ QString.number exitCode
        ++ "\n\nError output:\n".toList := by
      intro hm
      rcases List.mem_append.mp hm with m | m
      · rcases List.mem_append.mp m with m1 | m1
        · exact absurd m1 (by decide)
        · exact hnum m1
      · exact absurd m (by decide)
    rw [h1, arg_append_of_not_mem _ (error.left 500) 2 hp (by decide)]
    simp only [List.append_assoc]
    rfl
  have hp : percent ∉ "Conversion failed!\n\nExit code: ".toList ++ QString.number exitCode
      ++ "\n\nError output:\n".toList ++ error.left 500
      ++ "\n\nStandard output:\n".toList := by
    intro hm
    rcases List.mem_append.mp hm with m | m
    · rcases List.mem_append.mp m with m1 | m1
      · rcases List.mem_append.mp m1 with m2 | m2
        · rcases List.mem_append.mp m2 with m3 | m3
          · exact absurd m3 (by decide)
          · exact hnum m3
        · exact absurd m2 (by decide)
      · exact h m1
    · exact absurd m (by decide)
  unfold errorMsg
  rw [h2, arg_append_of_not_mem _ (output.left 500) 3 hp (by decide)]
  simp only [List.append_assoc]
  congr 5
  show output.left 500 ++ [] = output.left 500
  exact List.append_nil _

/-- The save dialogs the Convert handler opens, once an input is selected:
one, pre-filled with `suggestedName`, whatever happens afterwards. -/
theorem getSaveFileName_mem_convertClicked (ffmpegPath : QString) (w : Window)
    (saved : QString) (run : ProcessRun) (h : w.selectedFileName ≠ [])
    (caption dir filter : QString) :
    Effect.getSaveFileName caption dir filter ∈ (convertClicked ffmpegPath w saved run).2
      ↔ (caption = "Save MP3 file".toList
        ∧ dir = suggestedName w.selectedFileName
        ∧ filter = "MP3 Files (*.mp3);;All Files (*)".toList) := by
  by_cases ho : saved = []
  · subst ho
    rw [convertClicked_cancel ffmpegPath w run h]
    simp [saveDialogTrace]
  · cases hs : run.waitForStarted with
    | false =>
      rw [convertClicked_notStarted ffmpegPath w saved run h ho hs]
      simp [startTrace, saveDialogTrace]
    | true =>
      cases hf : run.waitForFinished with
      | false =>
        rw [convertClicked_timeout ffmpegPath w saved run h ho hs hf]
        simp [startTrace, saveDialogTrace]
      | true =>
        by_cases hc : run.exitStatus = ExitStatus.NormalExit ∧ run.exitCode = 0
        · rw [convertClicked_success ffmpegPath w saved run h ho hs hf hc.1 hc.2]
          simp [startTrace, saveDialogTrace]
        · rw [convertClicked_failure ffmpegPath w saved run h ho hs hf hc]
          simp only [startTrace, saveDialogTrace]
          split <;> simp

/-- The directory part of a path written as a directory part and a name
without separator. -/
theorem path_of_parts {input dirPart name : QString}
    (hd : (input = name ∧ dirPart = [dot])
      ∨ (input = slash :: name ∧ dirPart = [slash])
      ∨ (dirPart ≠ [] ∧ input = dirPart ++ slash :: name))
    (hn : slash ∉ name) : QFileInfo.path input = dirPart := by
  rcases hd with ⟨hi, hp⟩ | ⟨hi, hp⟩ | ⟨hne, hi⟩
  · subst hi hp
    unfold QFileInfo.path
    rw [splitLast_eq_none hn]
  · subst hi hp
    have hsp : splitLast slash (slash :: name) = some ([], name) := splitLast_append [] hn
    unfold QFileInfo.path
    rw [hsp]
  · subst hi
    exact path_append hne hn

/-- The file name of a path written as a directory part and a name without
separator. -/
theorem fileName_of_parts {input dirPart name : QString}
    (hd : (input = name ∧ dirPart = [dot])
      ∨ (input = slash :: name ∧ dirPart = [slash])
      ∨ (dirPart ≠ [] ∧ input = dirPart ++ slash :: name))
    (hn : slash ∉ name) : QFileInfo.fileName input = name := by
  rcases hd with ⟨hi, _⟩ | ⟨hi, _⟩ | ⟨_, hi⟩
  · subst hi
    unfold QFileInfo.fileName
    rw [splitLast_eq_none hn]
  · subst hi
    exact fileName_append [] hn
  · subst hi
    exact fileName_append dirPart hn

/-- The suggested name of a path written as a directory part, a stem and a
suffix without dot. -/
theorem suggestedName_of_parts {input dirPart name stem : QString}
    (hd : (input = name ∧ dirPart = [dot])
      ∨ (input = slash :: name ∧ dirPart = [slash])
      ∨ (dirPart ≠ [] ∧ input = dirPart ++ slash :: name))
    (hn : slash ∉ name)
    (hs : (name = stem ∧ dot ∉ name) ∨ ∃ ext, name = stem ++ dot :: ext ∧ dot ∉ ext) :
    suggestedName input = dirPart ++ "/".toList ++ stem ++ ".mp3".toList := by
  have hbase : QFileInfo.completeBaseName input = stem := by
    unfold QFileInfo.completeBaseName
    rw [fileName_of_parts hd hn]
    rcases hs with ⟨he, hdot⟩ | ⟨ext, he, hdot⟩
    · rw [splitLast_eq_none hdot]
      exact he
    · rw [he, splitLast_append stem hdot]
  unfold suggestedName
  rw [path_of_parts hd hn, hbase]

/-- Every path can be written as a directory part, a stem and a suffix
without dot. -/
theorem exists_parts (input : QString) :
    ∃ dirPart name stem : QString,
      ((input = name ∧ dirPart = [dot])
        ∨ (input = slash :: name ∧ dirPart = [slash])
        ∨ (dirPart ≠ [] ∧ input = dirPart ++ slash :: name))
      ∧ slash ∉ name
      ∧ ((name = stem ∧ dot ∉ name) ∨ ∃ ext, name = stem ++ dot :: ext ∧ dot ∉ ext) := by
  have hstem : ∀ name : QString, ∃ stem : QString,
      (name = stem ∧ dot ∉ name) ∨ ∃ ext, name = stem ++ dot :: ext ∧ dot ∉ ext := by
    intro name
    cases hsp : splitLast dot name with
    | none => exact ⟨name, Or.inl ⟨rfl, not_mem_of_splitLast_none hsp⟩⟩
    | some q =>
      obtain ⟨st, ext⟩ := q
      exact ⟨st, Or.inr ⟨ext, splitLast_some hsp⟩⟩
  cases hsp : splitLast slash input with
  | none =>
    obtain ⟨stem, hs⟩ := hstem input
    exact ⟨[dot], input, stem, Or.inl ⟨rfl, rfl⟩, not_mem_of_splitLast_none hsp, hs⟩
  | some q =>
    obtain ⟨d, name⟩ := q
    obtain ⟨hi, hn⟩ := splitLast_some hsp
    obtain ⟨stem, hs⟩ := hstem name
    cases d with
    | nil => exact ⟨[slash], name, stem, Or.inr (Or.inl ⟨hi, rfl⟩), hn, hs⟩
    | cons c cs =>
      exact ⟨c :: cs, name, stem, Or.inr (Or.inr ⟨by simp, hi⟩), hn, hs⟩

set_option maxRecDepth 100000

/-! ## The claims -/

/-- C1: for a child process that started and finished, the Convert handler
ends with the label "Converted successfully!" and an information dialog whose
text contains the output path exactly when the exit status is `NormalExit` and
the exit code is 0; otherwise it ends with the label "Conversion failed!" and
a critical dialog, and shows no information dialog. -/
theorem convert_success_iff_normal_exit_zero (ffmpegPath : QString) (w : Window)
    (saved : QString) (run : ProcessRun) (h : w.selectedFileName ≠ []) (ho : saved ≠ [])
    (hs : run.waitForStarted = true) (hf : run.waitForFinished = true) :
    (((convertClicked ffmpegPath w saved run).1.fileNameLabelText
          = "Converted successfully!".toList
        ∧ ∃ text, Effect.information "Success".toList text
            ∈ (convertClicked ffmpegPath w saved run).2 ∧ saved <:+: text)
      ↔ (run.exitStatus = ExitStatus.NormalExit ∧ run.exitCode = 0))
    ∧ (¬ (run.exitStatus = ExitStatus.NormalExit ∧ run.exitCode = 0) →
        (convertClicked ffmpegPath w saved run).1.fileNameLabelText
          = "Conversion failed!".toList
        ∧ (∃ text, Effect.critical "Error".toList text
            ∈ (convertClicked ffmpegPath w saved run).2)
        ∧ ∀ title text, Effect.information title text
            ∉ (convertClicked ffmpegPath w saved run).2) := by
  by_cases hc : run.exitStatus = ExitStatus.NormalExit ∧ run.exitCode = 0
  · rw [convertClicked_success ffmpegPath w saved run h ho hs hf hc.1 hc.2]
    refine ⟨⟨fun _ => hc, fun _ => ⟨rfl, "File converted successfully!\n".toList ++ saved, ?_,
      (List.suffix_append _ _).isInfix⟩⟩, fun hn => absurd hc hn⟩
    simp
  · rw [convertClicked_failure ffmpegPath w saved run h ho hs hf hc]
    refine ⟨⟨fun hl => absurd (show conversionFailed = "Converted successfully!".toList from hl.1) (by decide), fun hx => absurd hx hc⟩, fun _ => ⟨rfl, ?_, ?_⟩⟩
    · exact ⟨errorMsg run.exitCode run.standardError run.standardOutput, by simp⟩
    · intro title text
      simp only [startTrace, saveDialogTrace]
      split <;> simp

/-- Witness of C1: a run that exits normally with code 0 after `sampleInput`
was selected and `sampleOutput` confirmed. -/
theorem convert_success_iff_normal_exit_zero_witness :
    (convertClicked sampleFfmpeg sampleWindow sampleOutput
        (finishedRun ExitStatus.NormalExit 0 [] [])).1.fileNameLabelText
      = "Converted successfully!".toList
    ∧ ∃ text, Effect.information "Success".toList text
        ∈ (convertClicked sampleFfmpeg sampleWindow sampleOutput
            (finishedRun ExitStatus.NormalExit 0 [] [])).2 ∧ sampleOutput <:+: text :=
  (convert_success_iff_normal_exit_zero sampleFfmpeg sampleWindow sampleOutput
    (finishedRun ExitStatus.NormalExit 0 [] []) (by decide) (by decide) rfl rfl).1.mpr
    ⟨rfl, rfl⟩

/-- C2: when an input path is selected and an output path confirmed, the
handler starts exactly one program, the captured tool path, with exactly the
nine arguments `-i <input> -vn -acodec libmp3lame -ab 192k -y <output>`, the
two paths unchanged; and the captured tool path is the one `main` looked up. -/
theorem ffmpeg_started_with_fixed_arguments (ffmpegPath : QString) (w : Window)
    (saved : QString) (run : ProcessRun) (h : w.selectedFileName ≠ []) (ho : saved ≠ []) :
    (∀ program arguments,
        Effect.processStart program arguments ∈ (convertClicked ffmpegPath w saved run).2
          ↔ (program = ffmpegPath
            ∧ arguments = ["-i".toList, w.selectedFileName, "-vn".toList, "-acodec".toList,
                "libmp3lame".toList, "-ab".toList, "192k".toList, "-y".toList, saved]))
    ∧ (ffmpegPath ≠ [] → ∀ homePath,
        Effect.processStart ffmpegPath
            ["-i".toList, w.selectedFileName, "-vn".toList, "-acodec".toList,
              "libmp3lame".toList, "-ab".toList, "192k".toList, "-y".toList, saved]
          ∈ (main ffmpegPath homePath
              [Event.selectClick w.selectedFileName, Event.convertClick saved run]).trace) := by
  refine ⟨processStart_mem_convertClicked ffmpegPath w saved run h ho, fun hp homePath => ?_⟩
  have hp1 := (isEmpty_eq_false_iff _).mpr hp
  have h1 := (isEmpty_eq_false_iff _).mpr h
  have hw : (selectClicked homePath initialWindow w.selectedFileName).1.selectedFileName
      = w.selectedFileName := by
    simp [selectClicked, h1]
  have hv : (selectClicked homePath initialWindow w.selectedFileName).1.convertButtonVisible
      = true := by
    simp [selectClicked, h1]
  have h2 : (selectClicked homePath initialWindow w.selectedFileName).1.selectedFileName ≠ [] := by
    rw [hw]; exact h
  have hm := (processStart_mem_convertClicked ffmpegPath
    (selectClicked homePath initialWindow w.selectedFileName).1 saved run h2 ho
    ffmpegPath _).mpr ⟨rfl, rfl⟩
  rw [hw] at hm
  simp only [main, hp1, runEvents, dispatch, hv, if_true]
  exact List.mem_append_right _ (List.mem_append_right _ (List.mem_append_left _ hm))

/-- Witness of C2: `sampleInput` selected, `sampleOutput` confirmed, the tool
at `sampleFfmpeg`. -/
theorem ffmpeg_started_with_fixed_arguments_witness :
    Effect.processStart sampleFfmpeg
        ["-i".toList, sampleInput, "-vn".toList, "-acodec".toList, "libmp3lame".toList,
          "-ab".toList, "192k".toList, "-y".toList, sampleOutput]
      ∈ (main sampleFfmpeg sampleHome
          [Event.selectClick sampleInput, Event.convertClick sampleOutput hangingRun]).trace :=
  (ffmpeg_started_with_fixed_arguments sampleFfmpeg sampleWindow sampleOutput hangingRun
    (by decide) (by decide)).2 (by decide) sampleHome

/-- C3, evaluated on a failed conversion of `take%1.mp4`: the error stream
names the input file, so it holds the marker `%1`. The third `arg` call
replaces that marker, the lowest one left, by the standard output (empty
here) and leaves `%3` in place: the dialog shows `take.mp4` for `take%1.mp4`
as the error text and `%3` as the output text. -/
theorem errorMsg_replaces_markers_of_error_stream :
    errorMsg markerRun.exitCode markerRun.standardError markerRun.standardOutput
      = ("Conversion failed!\n\nExit code: 1\n\nError output:\n"
          ++ "/home/user/clips/take.mp4: Invalid data found when processing input\n"
          ++ "\n\nStandard output:\n%3").toList
    ∧ markerRun.standardError.left 500 = markerRun.standardError
    ∧ ¬ (markerRun.standardError.left 500
          <:+: errorMsg markerRun.exitCode markerRun.standardError markerRun.standardOutput)
    ∧ Effect.critical "Error".toList
          ("Conversion failed!\n\nExit code: 1\n\nError output:\n"
            ++ "/home/user/clips/take.mp4: Invalid data found when processing input\n"
            ++ "\n\nStandard output:\n%3").toList
        ∈ (convertClicked sampleFfmpeg
            (selectClicked sampleHome initialWindow markerInput).1
            "/home/user/clips/take.mp3".toList markerRun).2 := by
  refine ⟨by decide, by decide, by decide, by decide⟩

/-- C4: for a non-empty selected input path, the name handed to the save
dialog is spelled out from the characters of the input. Write the input as a
directory part and a name without separator (`name` alone with the directory
part `.`, `/name` with the directory part `/`, or `dir/name` with `dir` not
empty), and the name as a stem and a suffix without dot (`stem.ext`, or the
name itself when it has no dot). Every input can be written so, and for every
such writing the one save dialog the handler opens is pre-filled with the
directory part, a separator, the stem and `.mp3`. That name has the input's
directory part and complete base name and ends in `.mp3`. An input directly
in the root directory has the directory part `/`, so its suggestion starts
with two separators. -/
theorem suggested_output_path (ffmpegPath : QString) (w : Window) (saved : QString)
    (run : ProcessRun) (h : w.selectedFileName ≠ []) :
    (∀ dirPart name stem : QString,
        ((w.selectedFileName = name ∧ dirPart = ".".toList)
          ∨ (w.selectedFileName = "/".toList ++ name ∧ dirPart = "/".toList)
          ∨ (dirPart ≠ [] ∧ w.selectedFileName = dirPart ++ "/".toList ++ name)) →
        slash ∉ name →
        ((name = stem ∧ dot ∉ name)
          ∨ ∃ ext, name = stem ++ ".".toList ++ ext ∧ dot ∉ ext) →
        (∀ caption dir filter,
          Effect.getSaveFileName caption dir filter
              ∈ (convertClicked ffmpegPath w saved run).2
            ↔ (caption = "Save MP3 file".toList
              ∧ dir = dirPart ++ "/".toList ++ stem ++ ".mp3".toList
              ∧ filter = "MP3 Files (*.mp3);;All Files (*)".toList))
        ∧ QFileInfo.path w.selectedFileName = dirPart
        ∧ QFileInfo.fileName w.selectedFileName = name
        ∧ QFileInfo.completeBaseName w.selectedFileName = stem)
    ∧ (∃ dirPart name stem : QString,
        ((w.selectedFileName = name ∧ dirPart = ".".toList)
          ∨ (w.selectedFileName = "/".toList ++ name ∧ dirPart = "/".toList)
          ∨ (dirPart ≠ [] ∧ w.selectedFileName = dirPart ++ "/".toList ++ name))
        ∧ slash ∉ name
        ∧ ((name = stem ∧ dot ∉ name)
          ∨ ∃ ext, name = stem ++ ".".toList ++ ext ∧ dot ∉ ext))
    ∧ QFileInfo.path (suggestedName w.selectedFileName) = QFileInfo.path w.selectedFileName
    ∧ QFileInfo.completeBaseName (suggestedName w.selectedFileName)
        = QFileInfo.completeBaseName w.selectedFileName
    ∧ QFileInfo.fileName (suggestedName w.selectedFileName)
        = QFileInfo.completeBaseName w.selectedFileName ++ ".mp3".toList
    ∧ ".mp3".toList <:+ suggestedName w.selectedFileName := by
  have hsug : suggestedName w.selectedFileName
      = QFileInfo.path w.selectedFileName
        ++ slash :: (QFileInfo.completeBaseName w.selectedFileName ++ dot :: "mp3".toList) := by
    simp [suggestedName, slash, dot]
  have hmp3 : slash ∉ "mp3".toList := by decide
  have hdot : dot ∉ "mp3".toList := by decide
  have hbase := slash_not_mem_completeBaseName w.selectedFileName
  have hname : slash ∉ QFileInfo.completeBaseName w.selectedFileName ++ dot :: "mp3".toList := by
    intro hm
    rcases List.mem_append.mp hm with m | m
    · exact hbase m
    · rcases List.mem_cons.mp m with e | m2
      · exact absurd e (by decide)
      · exact hmp3 m2
  refine ⟨?_, ?_, ?_, ?_, ?_, ?_⟩
  · intro dirPart name stem hd hn hs
    have hd2 : (w.selectedFileName = name ∧ dirPart = [dot])
        ∨ (w.selectedFileName = slash :: name ∧ dirPart = [slash])
        ∨ (dirPart ≠ [] ∧ w.selectedFileName = dirPart ++ slash :: name) := by
      rcases hd with ⟨hi, hp⟩ | ⟨hi, hp⟩ | ⟨hne, hi⟩
      · exact Or.inl ⟨hi, hp⟩
      · exact Or.inr (Or.inl ⟨hi, hp⟩)
      · exact Or.inr (Or.inr ⟨hne, by rw [hi, List.append_assoc]; rfl⟩)
    have hs2 : (name = stem ∧ dot ∉ name) ∨ ∃ ext, name = stem ++ dot :: ext ∧ dot ∉ ext := by
      rcases hs with hl | ⟨ext, he, hx⟩
      · exact Or.inl hl
      · exact Or.inr ⟨ext, by rw [he, List.append_assoc]; rfl, hx⟩
    have hstem : QFileInfo.completeBaseName w.selectedFileName = stem := by
      unfold QFileInfo.completeBaseName
      rw [fileName_of_parts hd2 hn]
      rcases hs2 with ⟨he, hx⟩ | ⟨ext, he, hx⟩
      · rw [splitLast_eq_none hx]
        exact he
      · rw [he, splitLast_append stem hx]
    refine ⟨fun caption dir filter => ?_, path_of_parts hd2 hn, fileName_of_parts hd2 hn, hstem⟩
    rw [← suggestedName_of_parts hd2 hn hs2]
    exact getSaveFileName_mem_convertClicked ffmpegPath w saved run h caption dir filter
  · obtain ⟨dirPart, name, stem, hd, hn, hs⟩ := exists_parts w.selectedFileName
    refine ⟨dirPart, name, stem, ?_, hn, ?_⟩
    · rcases hd with ⟨hi, hp⟩ | ⟨hi, hp⟩ | ⟨hne, hi⟩
      · exact Or.inl ⟨hi, hp⟩
      · exact Or.inr (Or.inl ⟨hi, hp⟩)
      · exact Or.inr (Or.inr ⟨hne, by rw [hi, List.append_assoc]; rfl⟩)
    · rcases hs with hl | ⟨ext, he, hx⟩
      · exact Or.inl hl
      · exact Or.inr ⟨ext, by rw [he, List.append_assoc]; rfl, hx⟩
  · rw [hsug]
    exact path_append (path_ne_nil _) hname
  · rw [hsug]
    exact completeBaseName_append _ hbase hmp3 hdot
  · rw [hsug, fileName_append _ hname]
    rfl
  · exact List.suffix_append _ _

/-- Witness of C4: for `/home/user/clips/holiday.2024.mp4`, a name with two
dots, the save dialog is pre-filled with `/home/user/clips/holiday.2024.mp3`;
for `/video.mp4`, directly in the root directory, with `//video.mp3`. -/
theorem suggested_output_path_witness :
    Effect.getSaveFileName "Save MP3 file".toList "/home/user/clips/holiday.2024.mp3".toList
        "MP3 Files (*.mp3);;All Files (*)".toList
      ∈ (convertClicked sampleFfmpeg sampleWindow sampleOutput hangingRun).2
    ∧ Effect.getSaveFileName "Save MP3 file".toList "//video.mp3".toList
        "MP3 Files (*.mp3);;All Files (*)".toList
      ∈ (convertClicked sampleFfmpeg
          { sampleWindow with selectedFileName := "/video.mp4".toList }
          sampleOutput hangingRun).2 :=
  ⟨(((suggested_output_path sampleFfmpeg sampleWindow sampleOutput hangingRun
        (by decide)).1 "/home/user/clips".toList "holiday.2024.mp4".toList
        "holiday.2024".toList (Or.inr (Or.inr ⟨by decide, by decide⟩)) (by decide)
        (Or.inr ⟨"mp4".toList, by decide, by decide⟩)).1 _ _ _).mpr ⟨rfl, by decide, rfl⟩,
    (((suggested_output_path sampleFfmpeg
        { sampleWindow with selectedFileName := "/video.mp4".toList } sampleOutput hangingRun
        (by decide)).1 "/".toList "video.mp4".toList "video".toList
        (Or.inr (Or.inl ⟨by decide, rfl⟩)) (by decide)
        (Or.inr ⟨"mp4".toList, by decide, by decide⟩)).1 _ _ _).mpr ⟨rfl, by decide, rfl⟩⟩

/-- C5: a click on Convert starts a child process exactly when the stored
input path is non-empty and the save dialog returns a non-empty path. With an
empty input path the handler leaves the window as it is and does nothing; with
a cancelled save dialog it starts no process. -/
theorem convert_spawns_iff_input_and_output (ffmpegPath : QString) (w : Window)
    (saved : QString) (run : ProcessRun) :
    ((∃ program arguments,
        Effect.processStart program arguments ∈ (convertClicked ffmpegPath w saved run).2)
      ↔ (w.selectedFileName ≠ [] ∧ saved ≠ []))
    ∧ (w.selectedFileName = [] → convertClicked ffmpegPath w saved run = (w, []))
    ∧ (saved = [] → ∀ program arguments,
        Effect.processStart program arguments ∉ (convertClicked ffmpegPath w saved run).2) := by
  have hcancel : saved = [] → ∀ program arguments,
      Effect.processStart program arguments ∉ (convertClicked ffmpegPath w saved run).2 := by
    intro ho program arguments
    subst ho
    by_cases h : w.selectedFileName = []
    · rw [convertClicked_empty ffmpegPath w [] run h]
      simp
    · rw [convertClicked_cancel ffmpegPath w run h]
      simp [saveDialogTrace]
  refine ⟨⟨?_, ?_⟩, convertClicked_empty ffmpegPath w saved run, hcancel⟩
  · rintro ⟨program, arguments, hm⟩
    constructor
    · intro h
      rw [convertClicked_empty ffmpegPath w saved run h] at hm
      simp at hm
    · intro ho
      exact hcancel ho program arguments hm
  · rintro ⟨h, ho⟩
    exact ⟨ffmpegPath, _, (processStart_mem_convertClicked ffmpegPath w saved run h ho _ _).mpr
      ⟨rfl, rfl⟩⟩

/-- Witness of C5: with `sampleInput` selected and `sampleOutput` confirmed a
process is started; with the save dialog cancelled none is. -/
theorem convert_spawns_iff_input_and_output_witness :
    (∃ program arguments, Effect.processStart program arguments
        ∈ (convertClicked sampleFfmpeg sampleWindow sampleOutput hangingRun).2)
    ∧ ∀ program arguments, Effect.processStart program arguments
        ∉ (convertClicked sampleFfmpeg sampleWindow [] hangingRun).2 :=
  ⟨(convert_spawns_iff_input_and_output sampleFfmpeg sampleWindow sampleOutput hangingRun).1.mpr
      ⟨by decide, by decide⟩,
    (convert_spawns_iff_input_and_output sampleFfmpeg sampleWindow [] hangingRun).2.2 rfl⟩

/-- C6, evaluated on a run of `main`: after a click on Select that chooses
`sampleInput` and a second click on Select whose dialog is cancelled, the
convert button is visible and the stored input path is empty. -/
theorem convert_visible_with_empty_stored_path :
    (main sampleFfmpeg sampleHome
        [Event.selectClick sampleInput, Event.selectClick []]).window.convertButtonVisible = true
    ∧ (main sampleFfmpeg sampleHome
        [Event.selectClick sampleInput, Event.selectClick []]).window.selectedFileName = [] := by
  refine ⟨by decide, by decide⟩

/-- C7, evaluated after a selection: with `sampleInput` selected, a cancelled
open-file dialog (it returns the empty string) leaves the label and both
visibilities as they were and replaces the stored input path by the empty
string. -/
theorem select_cancel_clears_stored_path :
    sampleWindow.selectedFileName = sampleInput
    ∧ (selectClicked sampleHome sampleWindow []).1.selectedFileName = []
    ∧ (selectClicked sampleHome sampleWindow []).1.fileNameLabelText
        = sampleWindow.fileNameLabelText
    ∧ (selectClicked sampleHome sampleWindow []).1.fileNameLabelVisible = true
    ∧ (selectClicked sampleHome sampleWindow []).1.convertButtonVisible = true
    ∧ (selectClicked sampleHome sampleWindow []).1 ≠ sampleWindow := by
  refine ⟨by decide, by decide, by decide, by decide, by decide, by decide⟩

/-- C8: when the lookup of ffmpeg returns the empty path, `main` shows the
critical dialog and returns 1, and it neither connects a handler, nor shows
the window, nor enters the event loop; when the lookup returns a non-empty
path, `main` does not return 1: it connects the two handlers, shows the window
and enters the event loop, whose result it returns. -/
theorem startup_requires_ffmpeg (found homePath : QString) (events : List Event) :
    (found = [] →
      (main found homePath events).exitCode = 1
      ∧ (main found homePath events).trace
          = [Effect.findExecutable "ffmpeg".toList,
              Effect.critical "Error".toList
                "ffmpeg not found! Please install ffmpeg:\nsudo dnf install ffmpeg".toList]
      ∧ Effect.windowShow ∉ (main found homePath events).trace
      ∧ Effect.appExec ∉ (main found homePath events).trace
      ∧ ∀ button, Effect.connectClicked button ∉ (main found homePath events).trace)
    ∧ (found ≠ [] →
      (main found homePath events).exitCode ≠ 1
      ∧ Effect.windowShow ∈ (main found homePath events).trace
      ∧ [Effect.findExecutable "ffmpeg".toList, Effect.connectClicked Button.selectButton,
          Effect.connectClicked Button.convertButton, Effect.windowShow, Effect.appExec]
        <+: (main found homePath events).trace) := by
  constructor
  · intro hf
    subst hf
    have h0 : QString.isEmpty [] = true := rfl
    simp [main, h0, ffmpegNotFound]
  · intro hf
    have h1 := (isEmpty_eq_false_iff _).mpr hf
    simp only [main, h1, Bool.false_eq_true, if_false]
    refine ⟨by decide, by simp, ?_⟩
    exact ⟨(runEvents found homePath initialWindow events).2, by simp⟩

/-- Witness of C8: no ffmpeg found, and ffmpeg found at `sampleFfmpeg`. -/
theorem startup_requires_ffmpeg_witness :
    (main [] sampleHome []).exitCode = 1
    ∧ Effect.windowShow ∉ (main [] sampleHome []).trace
    ∧ (main sampleFfmpeg sampleHome []).exitCode ≠ 1
    ∧ Effect.windowShow ∈ (main sampleFfmpeg sampleHome []).trace :=
  have h0 := (startup_requires_ffmpeg [] sampleHome []).1 rfl
  have h1 := (startup_requires_ffmpeg sampleFfmpeg sampleHome []).2 (by decide)
  ⟨h0.1, h0.2.2.1, h1.1, h1.2.1⟩

/-- C9: when the child process started and the wait of 300000 ms for its end
fails, the handler terminates the process, then shows the timeout dialog, and
ends with the label "Conversion failed!", without reading a stream, asking
for the exit status or code, or showing an information dialog. When the wait
of 5000 ms for the start fails, it shows a critical dialog whose text contains
the tool path, ends with the label "Conversion failed!" and never waits for
the end of the process. -/
theorem convert_timeout_and_start_failure (ffmpegPath : QString) (w : Window)
    (saved : QString) (run : ProcessRun) (h : w.selectedFileName ≠ []) (ho : saved ≠ []) :
    (run.waitForStarted = true → run.waitForFinished = false →
      [Effect.waitForFinished 300000, Effect.terminate,
          Effect.critical "Error".toList "Conversion timed out or failed!".toList]
        <:+ (convertClicked ffmpegPath w saved run).2
      ∧ (convertClicked ffmpegPath w saved run).1.fileNameLabelText
          = "Conversion failed!".toList
      ∧ Effect.readAllStandardOutput ∉ (convertClicked ffmpegPath w saved run).2
      ∧ Effect.readAllStandardError ∉ (convertClicked ffmpegPath w saved run).2
      ∧ Effect.exitStatus ∉ (convertClicked ffmpegPath w saved run).2
      ∧ Effect.exitCode ∉ (convertClicked ffmpegPath w saved run).2
      ∧ ∀ title text,
          Effect.information title text ∉ (convertClicked ffmpegPath w saved run).2)
    ∧ (run.waitForStarted = false →
      (∃ text, [Effect.waitForStarted 5000, Effect.critical "Error".toList text]
          <:+ (convertClicked ffmpegPath w saved run).2 ∧ ffmpegPath <:+: text)
      ∧ (convertClicked ffmpegPath w saved run).1.fileNameLabelText
          = "Conversion failed!".toList
      ∧ (∀ msecs, Effect.waitForFinished msecs ∉ (convertClicked ffmpegPath w saved run).2)
      ∧ Effect.terminate ∉ (convertClicked ffmpegPath w saved run).2
      ∧ ∀ title text,
          Effect.information title text ∉ (convertClicked ffmpegPath w saved run).2) := by
  constructor
  · intro hs hf
    rw [convertClicked_timeout ffmpegPath w saved run h ho hs hf]
    refine ⟨List.suffix_append _ _, rfl, ?_, ?_, ?_, ?_, ?_⟩ <;>
      simp [startTrace, saveDialogTrace]
  · intro hs
    rw [convertClicked_notStarted ffmpegPath w saved run h ho hs]
    refine ⟨⟨"Failed to start ffmpeg conversion!\nPath: ".toList ++ ffmpegPath, ?_,
      (List.suffix_append _ _).isInfix⟩, rfl, ?_, ?_, ?_⟩
    · refine ⟨saveDialogTrace w.selectedFileName
        ++ [Effect.cout ("Running command: ".toList ++ ffmpegPath)]
        ++ (args w.selectedFileName saved).map (fun arg => Effect.cout ("  ".toList ++ arg))
        ++ [Effect.processStart ffmpegPath (args w.selectedFileName saved)], ?_⟩
      simp [startTrace]
    · simp [startTrace, saveDialogTrace]
    · simp [startTrace, saveDialogTrace]
    · simp [startTrace, saveDialogTrace]

/-- Witness of C9: a child process that started and was still running after
the wait for its end. -/
theorem convert_timeout_and_start_failure_witness :
    [Effect.waitForFinished 300000, Effect.terminate,
        Effect.critical "Error".toList "Conversion timed out or failed!".toList]
      <:+ (convertClicked sampleFfmpeg sampleWindow sampleOutput hangingRun).2
    ∧ (convertClicked sampleFfmpeg sampleWindow sampleOutput hangingRun).1.fileNameLabelText
        = "Conversion failed!".toList :=
  have hw := (convert_timeout_and_start_failure sampleFfmpeg sampleWindow sampleOutput
    hangingRun (by decide) (by decide)).1 rfl rfl
  ⟨hw.1, hw.2.1⟩

/-- C10: for a non-empty path returned by the open-file dialog, after Select
the file-name label and the convert button are visible, the path is stored,
and the label's text is what follows the last separator of the path: it has no
separator in it and the path is the text itself or a directory part, a
separator and the text. -/
theorem select_shows_file_name (homePath : QString) (w : Window) (chosen : QString)
    (h : chosen ≠ []) :
    (selectClicked homePath w chosen).1.fileNameLabelVisible = true
    ∧ (selectClicked homePath w chosen).1.convertButtonVisible = true
    ∧ (selectClicked homePath w chosen).1.selectedFileName = chosen
    ∧ slash ∉ (selectClicked homePath w chosen).1.fileNameLabelText
    ∧ (chosen = (selectClicked homePath w chosen).1.fileNameLabelText
      ∨ ∃ dir, chosen = dir ++ slash :: (selectClicked homePath w chosen).1.fileNameLabelText) := by
  have h1 := (isEmpty_eq_false_iff _).mpr h
  have hw : (selectClicked homePath w chosen).1
      = { selectedFileName := chosen
          fileNameLabelText := QFileInfo.fileName chosen
          fileNameLabelVisible := true
          convertButtonVisible := true } := by
    simp [selectClicked, h1]
  rw [hw]
  exact ⟨rfl, rfl, rfl, slash_not_mem_fileName chosen, fileName_decompose chosen⟩

/-- Witness of C10: `sampleInput` selected in the initial window. -/
theorem select_shows_file_name_witness :
    (selectClicked sampleHome initialWindow sampleInput).1.fileNameLabelVisible = true
    ∧ (selectClicked sampleHome initialWindow sampleInput).1.convertButtonVisible = true
    ∧ (selectClicked sampleHome initialWindow sampleInput).1.fileNameLabelText
        = "holiday.2024.mp4".toList :=
  have hw := select_shows_file_name sampleHome initialWindow sampleInput (by decide)
  ⟨hw.1, hw.2.1, by decide⟩

end Mp4ToMp3
